import Mathlib

/-!
Verification development for `scripts/generate_window_reference_data.py`
of the spectro-v3 repository.

The script prints, for each of the four window types
(Hann, Hamming, Blackman, Blackman-Harris), the coefficients returned by
`scipy.signal.windows.get_window(name, 8, True)` as a C++
`const std::vector<float>` literal, four values per line, each value
rendered with `f"{v:.7f}f, "`.

The window-coefficient mathematics itself lives in the third-party
library (scipy), not in the repository; it is modelled here from the
closed-form formulas the specification records (section 4.1), which
coincide with scipy's documented `general_cosine` family, including the
degenerate guard that a requested length of at most 1 yields the
all-ones window.  The `WindowTable.getOrCompute` validation described by
the specification has no source in the repository either and is likewise
modelled from the specification's words.
-/

namespace Spectro

/-- The four window types handled by the script (source lines 43-48) and by
the windowing subsystem described in the specification. -/
inductive WindowType
  | hann
  | hamming
  | blackman
  | blackmanHarris

/-- Symmetric versus periodic generation.  scipy's `get_window` third
argument `fftbins = True` selects periodic (non-symmetric) generation. -/
inductive Mode
  | symmetric
  | periodic

/-- Modelled from the spec: closed-form cosine-sum window value at index `i`,
where `Mm1` stands for `M - 1` in the spec's formulas (section 4.1).  These
coincide with scipy's `general_cosine` coefficient sets for the four types. -/
noncomputable def windowFormula (t : WindowType) (Mm1 : ℕ) (i : ℕ) : ℝ :=
  match t with
  | .hann => 0.5 - 0.5 * Real.cos (2 * Real.pi * i / Mm1)
  | .hamming => 0.54 - 0.46 * Real.cos (2 * Real.pi * i / Mm1)
  | .blackman =>
      0.42 - 0.5 * Real.cos (2 * Real.pi * i / Mm1)
        + 0.08 * Real.cos (4 * Real.pi * i / Mm1)
  | .blackmanHarris =>
      0.35875 - 0.48829 * Real.cos (2 * Real.pi * i / Mm1)
        + 0.14128 * Real.cos (4 * Real.pi * i / Mm1)
        - 0.01168 * Real.cos (6 * Real.pi * i / Mm1)

/-- Modelled from the spec: coefficient `i` of the window of type `t`,
symmetry `mode` and requested length `N`.  `M = N` for symmetric mode and
`M = N + 1` for periodic mode; a requested length `N ≤ 1` is the degenerate
case whose single coefficient is `1` (spec section 4.1, matching scipy's
length guard). -/
noncomputable def windowCoeff (t : WindowType) (mode : Mode) (N : ℕ) (i : ℕ) : ℝ :=
  if N ≤ 1 then 1
  else windowFormula t (match mode with | .symmetric => N - 1 | .periodic => N) i

/-- Modelled from the spec: the full coefficient sequence of length `N`. -/
noncomputable def windowCoeffList (t : WindowType) (mode : Mode) (N : ℕ) : List ℝ :=
  (List.range N).map (windowCoeff t mode N)

/-- The window-name strings accepted by the script's calls into
`scipy.signal.windows.get_window` (source lines 43-48). -/
def parseWindow : String → Option WindowType
  | "hann" => some .hann
  | "hamming" => some .hamming
  | "blackman" => some .blackman
  | "blackmanharris" => some .blackmanHarris
  | _ => none

/-- Modelled from the spec: `scipy.signal.windows.get_window(name, Nx, fftbins)`.
`fftbins = true` (the value the script passes) selects periodic generation,
`false` symmetric; an unknown name raises, modelled as `Except.error`. -/
noncomputable def get_window (name : String) (Nx : ℕ) (fftbins : Bool) :
    Except String (List ℝ) :=
  match parseWindow name with
  | some t =>
      .ok (windowCoeffList t (if fftbins then Mode.periodic else Mode.symmetric) Nx)
  | none => .error "Unknown window type."

/-- Render a decimal digit `d < 10` as its character. -/
def digitChar (d : ℕ) : Char := Nat.digitChar d

/-- The exactly seven decimal digits of `m % 10^7`, most significant first:
the fractional part of Python's fixed-point `f"{v:.7f}"` rendering. -/
def frac7 (m : ℕ) : String :=
  String.mk ((List.range 7).map fun j => digitChar (m / 10 ^ (6 - j) % 10))

/-- Decimal digits of `n`, least significant first. -/
def natDigitsRev (n : ℕ) : List Char :=
  if h : n < 10 then [digitChar n]
  else digitChar (n % 10) :: natDigitsRev (n / 10)
termination_by n
decreasing_by exact Nat.div_lt_self (by omega) (by omega)

/-- Decimal rendering of a natural number, most significant digit first. -/
def natRender (n : ℕ) : String := String.mk (natDigitsRev n).reverse

/-- Fixed-point rendering of `n / 10^7` with exactly seven digits after the
decimal point; `n` is the scaled integer produced by rounding. -/
def renderFixed7 (n : ℤ) : String :=
  (if n < 0 then "-" else "") ++ natRender (n.natAbs / 10 ^ 7) ++ "." ++
    frac7 (n.natAbs % 10 ^ 7)

/-- Python's `f"{v:.7f}"`: round `v` to the nearest multiple of `10 ^ (-7)`
and render it in fixed-point notation with seven digits after the point. -/
noncomputable def pyFormat7 (x : ℝ) : String := renderFixed7 (round (x * 10 ^ 7))

/-- The text the loop body of `format_cpp_vector` appends for the value `v`
at zero-based position `i` (source lines 32-35): a line break plus
four-space indent before every fourth value, then `f"{v:.7f}f, "`. -/
noncomputable def valuePiece (i : ℕ) (v : ℝ) : String :=
  (if i % 4 = 0 then "\n    " else "") ++ pyFormat7 v ++ "f, "

/-- The accumulating loop of `format_cpp_vector` (source lines 32-35):
`i` is the zero-based index of the next value, `acc` the output so far. -/
noncomputable def formatLoop (values : List ℝ) (i : ℕ) (acc : String) : String :=
  match values with
  | [] => acc
  | v :: rest => formatLoop rest (i + 1) (acc ++ valuePiece i v)

/-- `format_cpp_vector(values, name)` from source lines 27-37: header,
the loop over the values, and the closing `"\n};\n"`. -/
noncomputable def format_cpp_vector (values : List ℝ) (name : String) : String :=
  formatLoop values 0 ("const std::vector<float> " ++ name ++ " = \x7b") ++ "\n\x7d;\n"

/-- Closed-form description of what the loop emits for the values starting
at position `i`: the concatenation of their `valuePiece`s. -/
noncomputable def pieces (i : ℕ) : List ℝ → String
  | [] => ""
  | v :: rest => valuePiece i v ++ pieces (i + 1) rest

/-- The `window_types` list of the script (source lines 43-48):
scipy name paired with the C++ name. -/
def windowTypes : List (String × String) :=
  [("hann", "Hann"), ("hamming", "Hamming"),
   ("blackman", "Blackman"), ("blackmanharris", "BlackmanHarris")]

/-- The blocks `main` prints, in order (source lines 50-52); each `print`
appends a trailing newline to the formatted array.  A scipy error would
abort the script, modelled by the `Except` monad. -/
noncomputable def mainOutput : Except String (List String) :=
  windowTypes.mapM fun p =>
    (get_window p.1 8 true).map fun coeffs =>
      format_cpp_vector coeffs ("kExpected" ++ p.2 ++ "Window8") ++ "\n"

/-- The script as run by the interpreter: it never inspects its
command-line arguments, environment or standard input (source lines 40-55),
so the run is a function of none of them. -/
noncomputable def runScript (_argv : List String) (_env : List (String × String))
    (_stdin : String) : Except String (List String) :=
  mainOutput

/-- Modelled from the spec: error conditions of `WindowTable.getOrCompute`
(spec section 4.1); the component itself has no source in the repository. -/
inductive WindowError
  | invalidLength
  | unsupportedType

/-- Modelled from the spec: the validation performed by
`WindowTable.getOrCompute` for a configured maximum frame size `maxFrame`:
length `0` or a length above the maximum fails with `InvalidLengthError`
and produces no coefficient buffer; otherwise the coefficients are
computed.  The memoizing cache is irrelevant to the validation contract
and is not modelled. -/
noncomputable def getOrCompute (maxFrame : ℕ) (t : WindowType) (mode : Mode)
    (N : ℕ) : Except WindowError (List ℝ) :=
  if N = 0 ∨ maxFrame < N then .error .invalidLength
  else .ok (windowCoeffList t mode N)

/-! Helper lemmas. -/

/-- The accumulating loop equals the accumulator followed by the
concatenated per-value pieces. -/
theorem formatLoop_eq (values : List ℝ) (i : ℕ) (acc : String) :
    formatLoop values i acc = acc ++ pieces i values := by
  induction values generalizing i acc with
  | nil => simp [formatLoop, pieces]
  | cons v rest ih =>
      simp [formatLoop, pieces, ih, String.append_assoc]

/-- Closed form of `format_cpp_vector`: header, pieces, footer. -/
theorem format_cpp_vector_eq (values : List ℝ) (name : String) :
    format_cpp_vector values name =
      "const std::vector<float> " ++ name ++ " = \x7b" ++ pieces 0 values ++
        "\n\x7d;\n" := by
  simp [format_cpp_vector, formatLoop_eq, String.append_assoc]

/-- A digit below ten renders as a character between `'0'` and `'9'`. -/
theorem digitChar_bounds : ∀ d, d < 10 → '0' ≤ digitChar d ∧ digitChar d ≤ '9' := by
  decide

/-- The fractional block always holds exactly seven characters. -/
theorem frac7_length (m : ℕ) : (frac7 m).length = 7 := rfl

/-- Every character of the fractional block is a decimal digit. -/
theorem frac7_digits (m : ℕ) : ∀ c ∈ (frac7 m).data, '0' ≤ c ∧ c ≤ '9' := by
  intro c hc
  simp only [frac7, String.mk, List.mem_map] at hc
  obtain ⟨j, -, rfl⟩ := hc
  exact digitChar_bounds _ (Nat.mod_lt _ (by omega))

/-- Every character of the integer-part rendering is a decimal digit. -/
theorem natDigitsRev_digits (n : ℕ) :
    ∀ c ∈ natDigitsRev n, '0' ≤ c ∧ c ≤ '9' := by
  induction n using Nat.strong_induction_on with
  | _ n ih =>
      intro c hc
      rw [natDigitsRev] at hc
      by_cases h : n < 10
      · simp [h] at hc
        exact hc ▸ digitChar_bounds _ h
      · simp [h] at hc
        rcases hc with rfl | hc
        · exact digitChar_bounds _ (Nat.mod_lt _ (by omega))
        · exact ih (n / 10) (Nat.div_lt_self (by omega) (by omega)) c hc

/-- The four blocks the script prints, computed once for reuse. -/
theorem mainOutput_eq :
    mainOutput = Except.ok
      [format_cpp_vector (windowCoeffList .hann .periodic 8)
          "kExpectedHannWindow8" ++ "\n",
        format_cpp_vector (windowCoeffList .hamming .periodic 8)
          "kExpectedHammingWindow8" ++ "\n",
        format_cpp_vector (windowCoeffList .blackman .periodic 8)
          "kExpectedBlackmanWindow8" ++ "\n",
        format_cpp_vector (windowCoeffList .blackmanHarris .periodic 8)
          "kExpectedBlackmanHarrisWindow8" ++ "\n"] := rfl

/-! Theorems for the claims. -/

/-- C3: every run of the script prints exactly four window arrays, one per
supported window type, in the order Hann, Hamming, Blackman,
Blackman-Harris, and no other types are emitted. -/
theorem main_emits_exactly_four_arrays_in_order :
    mainOutput = Except.ok
      [format_cpp_vector (windowCoeffList .hann .periodic 8)
          "kExpectedHannWindow8" ++ "\n",
        format_cpp_vector (windowCoeffList .hamming .periodic 8)
          "kExpectedHammingWindow8" ++ "\n",
        format_cpp_vector (windowCoeffList .blackman .periodic 8)
          "kExpectedBlackmanWindow8" ++ "\n",
        format_cpp_vector (windowCoeffList .blackmanHarris .periodic 8)
          "kExpectedBlackmanHarrisWindow8" ++ "\n"] := rfl

/-- C10: the script reads no input (no command-line arguments, environment
or standard input), so any two runs against the same library produce
identical output. -/
theorem script_run_deterministic (a1 a2 : List String)
    (e1 e2 : List (String × String)) (s1 s2 : String) :
    runScript a1 e1 s1 = runScript a2 e2 s2 := rfl

/-- C1: for every entry of the script's window-type list, the library call
is made with length 8 and the periodic flag, and every block the script
emits is the formatting of a periodic-mode coefficient array of length 8. -/
theorem main_generates_periodic_at_length8 (p : String × String)
    (hp : p ∈ windowTypes) :
    (∃ t : WindowType,
        get_window p.1 8 true = Except.ok (windowCoeffList t Mode.periodic 8)) ∧
    (∃ blocks : List String, mainOutput = Except.ok blocks ∧
      ∀ b ∈ blocks, ∃ t : WindowType, ∃ nm : String,
        b = format_cpp_vector (windowCoeffList t Mode.periodic 8) nm ++ "\n") := by
  constructor
  · fin_cases hp
    · exact ⟨.hann, rfl⟩
    · exact ⟨.hamming, rfl⟩
    · exact ⟨.blackman, rfl⟩
    · exact ⟨.blackmanHarris, rfl⟩
  · refine ⟨_, mainOutput_eq, ?_⟩
    intro b hb
    simp only [List.mem_cons, List.not_mem_nil, or_false] at hb
    rcases hb with rfl | rfl | rfl | rfl
    · exact ⟨.hann, _, rfl⟩
    · exact ⟨.hamming, _, rfl⟩
    · exact ⟨.blackman, _, rfl⟩
    · exact ⟨.blackmanHarris, _, rfl⟩

/-- Witness for C1 at the first entry of the window-type list. -/
theorem main_generates_periodic_at_length8_witness :
    ("hann", "Hann") ∈ windowTypes ∧
    ((∃ t : WindowType,
        get_window "hann" 8 true = Except.ok (windowCoeffList t Mode.periodic 8)) ∧
    (∃ blocks : List String, mainOutput = Except.ok blocks ∧
      ∀ b ∈ blocks, ∃ t : WindowType, ∃ nm : String,
        b = format_cpp_vector (windowCoeffList t Mode.periodic 8) nm ++ "\n")) :=
  ⟨by decide, main_generates_periodic_at_length8 ("hann", "Hann") (by decide)⟩

/-- C5: the coefficient count always equals the requested length exactly,
and in particular each of the script's four calls at length 8 returns
exactly 8 coefficients. -/
theorem coeff_count_equals_requested_length :
    (∀ (t : WindowType) (mode : Mode) (N : ℕ),
        (windowCoeffList t mode N).length = N) ∧
    (∀ p ∈ windowTypes, ∃ coeffs : List ℝ,
        get_window p.1 8 true = Except.ok coeffs ∧ coeffs.length = 8) := by
  constructor
  · intro t mode N
    simp [windowCoeffList]
  · intro p hp
    fin_cases hp <;> exact ⟨_, rfl, by simp [windowCoeffList]⟩

/-- Witness for C5 at the first entry of the window-type list. -/
theorem coeff_count_equals_requested_length_witness :
    ("hann", "Hann") ∈ windowTypes ∧
    (∃ coeffs : List ℝ,
        get_window "hann" 8 true = Except.ok coeffs ∧ coeffs.length = 8) :=
  ⟨by decide, coeff_count_equals_requested_length.2 ("hann", "Hann") (by decide)⟩

/-- C9: the emitted literal is the header `const std::vector<float> `,
the name, ` = `, an opening brace, one piece per value — each value,
the last included, followed by `f, ` — and the closing newline, brace,
semicolon, newline; an empty list contributes no pieces at all. -/
theorem format_cpp_vector_shape (values : List ℝ) (nm : String) :
    format_cpp_vector values nm =
      "const std::vector<float> " ++ nm ++ " = \x7b" ++ pieces 0 values ++
        "\n\x7d;\n" ∧
    (∀ (i : ℕ) (v : ℝ) (rest : List ℝ), pieces i (v :: rest) =
      (if i % 4 = 0 then "\n    " else "") ++
        (pyFormat7 v ++ ("f, " ++ pieces (i + 1) rest))) ∧
    format_cpp_vector [] nm =
      "const std::vector<float> " ++ nm ++ " = \x7b" ++ "\n\x7d;\n" := by
  refine ⟨format_cpp_vector_eq values nm, ?_, ?_⟩
  · intro i v rest
    simp [pieces, valuePiece, String.append_assoc]
  · simp [format_cpp_vector_eq, pieces]

/-- C4: values are formatted four per line (a line break is inserted
exactly before the values at positions divisible by four) and every value
is rendered in fixed-point notation with exactly seven digits after the
decimal point. -/
theorem format_four_per_line_seven_digits (values : List ℝ) (nm : String) :
    format_cpp_vector values nm =
      "const std::vector<float> " ++ nm ++ " = \x7b" ++ pieces 0 values ++
        "\n\x7d;\n" ∧
    ∀ (i : ℕ) (v : ℝ), ∃ intPart fracPart : String,
      valuePiece i v =
        (if i % 4 = 0 then "\n    " else "") ++
          (intPart ++ ("." ++ (fracPart ++ "f, "))) ∧
      fracPart.length = 7 ∧
      (∀ c ∈ fracPart.data, '0' ≤ c ∧ c ≤ '9') ∧
      (∀ c ∈ intPart.data, c = '-' ∨ ('0' ≤ c ∧ c ≤ '9')) := by
  refine ⟨format_cpp_vector_eq values nm, ?_⟩
  intro i v
  refine ⟨(if round (v * 10 ^ 7) < 0 then "-" else "") ++
      natRender ((round (v * 10 ^ 7)).natAbs / 10 ^ 7),
    frac7 ((round (v * 10 ^ 7)).natAbs % 10 ^ 7), ?_, frac7_length _,
    frac7_digits _, ?_⟩
  · simp [valuePiece, pyFormat7, renderFixed7, String.append_assoc]
  · intro c hc
    rw [String.data_append] at hc
    rcases List.mem_append.1 hc with hc | hc
    · left
      by_cases h : round (v * 10 ^ 7) < 0 <;> simp [h] at hc
      exact hc
    · right
      exact natDigitsRev_digits _ c (by simpa [natRender] using hc)

/-- The Hann coefficient at length 8 in periodic mode, in closed form. -/
theorem hann8_coeff (i : ℕ) :
    windowCoeff .hann .periodic 8 i = 0.5 - 0.5 * Real.cos (2 * Real.pi * i / 8) := by
  norm_num [windowCoeff, windowFormula]

/-- The square root of two, bounded by rationals. -/
theorem sqrt_two_bounds : 1.4142135 ≤ Real.sqrt 2 ∧ Real.sqrt 2 ≤ 1.4142136 := by
  have h2 : Real.sqrt 2 ^ 2 = 2 := Real.sq_sqrt (by norm_num)
  have hs : 0 ≤ Real.sqrt 2 := Real.sqrt_nonneg 2
  constructor <;> nlinarith [h2, hs]

/-- C2: the script's `get_window('hann', 8, True)` call produces the periodic
Hann coefficients, whose closed form at length 8 is
`0.5 - 0.5 * cos(2 * pi * i / 8)`, and whose first four values match
`0.0000000, 0.1464466, 0.5000000, 0.8535534` within `1e-6`. -/
theorem hann_periodic8_first_four_values :
    get_window "hann" 8 true = Except.ok (windowCoeffList .hann .periodic 8) ∧
    (∀ i : ℕ, windowCoeff .hann .periodic 8 i =
      0.5 - 0.5 * Real.cos (2 * Real.pi * i / 8)) ∧
    |windowCoeff .hann .periodic 8 0 - 0| ≤ 1e-6 ∧
    |windowCoeff .hann .periodic 8 1 - 0.1464466| ≤ 1e-6 ∧
    |windowCoeff .hann .periodic 8 2 - 0.5| ≤ 1e-6 ∧
    |windowCoeff .hann .periodic 8 3 - 0.8535534| ≤ 1e-6 := by
  obtain ⟨hlo, hhi⟩ := sqrt_two_bounds
  refine ⟨rfl, hann8_coeff, ?_, ?_, ?_, ?_⟩
  · rw [hann8_coeff]
    norm_num [Real.cos_zero]
  · rw [hann8_coeff]
    have e : 2 * Real.pi * ((1 : ℕ) : ℝ) / 8 = Real.pi / 4 := by push_cast; ring
    rw [e, Real.cos_pi_div_four, abs_le]
    constructor <;> nlinarith [hlo, hhi]
  · rw [hann8_coeff]
    have e : 2 * Real.pi * ((2 : ℕ) : ℝ) / 8 = Real.pi / 2 := by push_cast; ring
    rw [e, Real.cos_pi_div_two]
    norm_num
  · rw [hann8_coeff]
    have e : 2 * Real.pi * ((3 : ℕ) : ℝ) / 8 = Real.pi - Real.pi / 4 := by
      push_cast; ring
    rw [e, Real.cos_pi_sub, Real.cos_pi_div_four, abs_le]
    constructor <;> nlinarith [hlo, hhi]

/-- Every closed-form window value lies in the unit interval, for any
denominator. -/
theorem windowFormula_bounds (t : WindowType) (M i : ℕ) :
    0 ≤ windowFormula t M i ∧ windowFormula t M i ≤ 1 := by
  have e2 : 4 * Real.pi * i / M = 2 * (2 * Real.pi * i / M) := by ring
  have e3 : 6 * Real.pi * i / M = 3 * (2 * Real.pi * i / M) := by ring
  have hc1 : -1 ≤ Real.cos (2 * Real.pi * i / M) := Real.neg_one_le_cos _
  have hc2 : Real.cos (2 * Real.pi * i / M) ≤ 1 := Real.cos_le_one _
  have hm : (0 : ℝ) ≤ 1 - Real.cos (2 * Real.pi * i / M) := by linarith
  have hp : (0 : ℝ) ≤ 1 + Real.cos (2 * Real.pi * i / M) := by linarith
  cases t with
  | hann =>
      simp only [windowFormula]
      constructor <;> nlinarith [hc1, hc2]
  | hamming =>
      simp only [windowFormula]
      constructor <;> nlinarith [hc1, hc2]
  | blackman =>
      simp only [windowFormula]
      rw [e2, Real.cos_two_mul]
      constructor
      · nlinarith [sq_nonneg (1 - Real.cos (2 * Real.pi * i / M)), hm]
      · nlinarith [mul_nonneg hp hm, hp]
  | blackmanHarris =>
      simp only [windowFormula]
      rw [e2, Real.cos_two_mul, e3, Real.cos_three_mul]
      constructor
      · nlinarith [mul_nonneg (mul_nonneg hm hm) hm, sq_nonneg
          (1 - Real.cos (2 * Real.pi * i / M)), hm]
      · nlinarith [mul_nonneg hp (sq_nonneg
          (1 - Real.cos (2 * Real.pi * i / M))), mul_nonneg hp hm, hp]

/-- C7: for all four window types, both symmetry modes and every requested
length, every coefficient lies in the interval `[0, 1]` — exactly, not
merely within a floating-point tolerance; in particular every value the
script prints at length 8 does. -/
theorem windowCoeff_in_unit_interval (t : WindowType) (mode : Mode) (N i : ℕ) :
    0 ≤ windowCoeff t mode N i ∧ windowCoeff t mode N i ≤ 1 := by
  unfold windowCoeff
  split
  · norm_num
  · exact windowFormula_bounds t _ i

/-- C6 counterexample: at requested length 1 the periodic Hann sequence is
the degenerate `[1]`, while the symmetric Hann window of length 2 with its
last sample dropped is `[0]`. -/
theorem periodic_trunc_counterexample_length_one :
    windowCoeffList .hann .periodic 1 ≠
      (windowCoeffList .hann .symmetric 2).dropLast := by
  intro heq
  have h1 : windowCoeffList .hann .periodic 1 = [1] := by
    simp [windowCoeffList, windowCoeff, List.range_succ]
  have h2 : (windowCoeffList .hann .symmetric 2).dropLast = [0] := by
    have : windowCoeff .hann .symmetric 2 0 = 0 := by
      norm_num [windowCoeff, windowFormula, Real.cos_zero]
    simp [windowCoeffList, List.range_succ, this]
  rw [h1, h2] at heq
  simp at heq

/-- C6 as amended: for every window type and every requested length other
than the degenerate 1, the periodic sequence of length `N` equals the
symmetric window of length `N + 1` with its last sample dropped. -/
theorem periodic_eq_symmetric_succ_truncated (t : WindowType) (N : ℕ)
    (h : N ≠ 1) :
    windowCoeffList t .periodic N =
      (windowCoeffList t .symmetric (N + 1)).dropLast := by
  rcases Nat.eq_zero_or_pos N with rfl | hpos
  · simp [windowCoeffList, List.range_succ]
  · have h2 : 2 ≤ N := by omega
    have hfun : windowCoeff t .periodic N = windowCoeff t .symmetric (N + 1) := by
      funext i
      have hn1 : ¬ N ≤ 1 := by omega
      have hn2 : ¬ N + 1 ≤ 1 := by omega
      simp [windowCoeff, hn1, hn2]
    unfold windowCoeffList
    rw [hfun, List.range_succ, List.map_append]
    simp

/-- Witness for the amended C6 at the script's reference length 8. -/
theorem periodic_eq_symmetric_succ_truncated_witness :
    (8 : ℕ) ≠ 1 ∧
      windowCoeffList .hann .periodic 8 =
        (windowCoeffList .hann .symmetric 9).dropLast :=
  ⟨by norm_num, periodic_eq_symmetric_succ_truncated .hann 8 (by norm_num)⟩

/-- C8: requesting length 0 fails with `InvalidLengthError` for every
window type and mode, requesting a length above the configured maximum
fails likewise, and in neither case is a coefficient buffer produced. -/
theorem getOrCompute_rejects_invalid_length (maxFrame : ℕ) (t : WindowType)
    (mode : Mode) :
    getOrCompute maxFrame t mode 0 = .error .invalidLength ∧
    (∀ N : ℕ, maxFrame < N →
      getOrCompute maxFrame t mode N = .error .invalidLength) ∧
    (∀ (N : ℕ) (buf : List ℝ), (N = 0 ∨ maxFrame < N) →
      getOrCompute maxFrame t mode N ≠ .ok buf) := by
  refine ⟨?_, ?_, ?_⟩
  · simp [getOrCompute]
  · intro N hN
    unfold getOrCompute
    rw [if_pos (Or.inr hN)]
  · intro N buf hcond hcontra
    unfold getOrCompute at hcontra
    rw [if_pos hcond] at hcontra
    exact Except.noConfusion hcontra

/-- Witness for C8 with a configured maximum of 1024. -/
theorem getOrCompute_rejects_invalid_length_witness :
    getOrCompute 1024 .hann .periodic 0 = .error .invalidLength ∧
    (1024 < 1025 ∧
      getOrCompute 1024 .hann .periodic 1025 = .error .invalidLength) :=
  ⟨(getOrCompute_rejects_invalid_length 1024 .hann .periodic).1,
    by norm_num,
    (getOrCompute_rejects_invalid_length 1024 .hann .periodic).2.1 1025
      (by norm_num)⟩

end Spectro
